import Mathlib

/-!
Verification of the thymer-inbox synchronization engine (cmd/tm): the
change-detection upserters for the GitHub, Google Calendar and Readwise
sources, and the in-memory delivery queue of the local server.

Embedding conventions:
* `time.Time` is an instant in integer nanoseconds (`GoTime := Int`);
  `After` is strict `<` on instants and `Equal` is instant equality.
* A bbolt bucket is a total function `String → Option value`; `Put` is a
  pointwise update and JSON marshalling round-trips to the stored record
  (fields tagged `json:"-"` are zeroed by the marshalling, see `storedForm`).
* The Go `map[string]QueueItem` queue is a list of key/value pairs in
  iteration order; map assignment replaces the entry of an existing key.
* `float64` fields never inspected by the sync logic are carried as opaque
  integers.
-/

namespace ThymerInbox

/-- Go `time.Time`, as an instant in integer nanoseconds since the epoch. -/
abbrev GoTime := Int

/-- Go `t.After(u)`: `t` is a strictly later instant than `u`. -/
def timeAfter (t u : GoTime) : Bool := decide (u < t)

/-- Go `t.Equal(u)`: `t` and `u` are the same instant. -/
def timeEqual (t u : GoTime) : Bool := t == u

/-! ## GitHub source (cmd/tm/github.go) -/

/-- A stored GitHub issue or pull request (github.go `GitHubIssue`). -/
structure GitHubIssue where
  id : String
  repo : String
  number : Int
  title : String
  body : String
  state : String
  type : String
  url : String
  author : String
  labels : List String
  createdAt : GoTime
  updatedAt : GoTime
  closedAt : Option GoTime
  merged : Bool
deriving DecidableEq

/-- The `github_issues` bucket of github.db: external id to stored snapshot. -/
abbrev GHStore := String → Option GitHubIssue

/-- bbolt `b.Put(k, v)` on the GitHub bucket. -/
def ghPut (s : GHStore) (k : String) (v : GitHubIssue) : GHStore :=
  fun k2 => if k2 = k then some v else s k2

/-- github.go `needsUpdate`: tracked-field comparison of an old snapshot
against the freshly fetched record. -/
def needsUpdate (old new : GitHubIssue) : Bool :=
  if old.state ≠ new.state then true
  else if old.title ≠ new.title then true
  else if timeAfter new.updatedAt old.updatedAt then true
  else false

/-- github.go `upsert`: classify the fetched record against the stored
snapshot and write the snapshot on the created and updated paths. -/
def upsert (s : GHStore) (issue : GitHubIssue) : String × GHStore :=
  match s issue.id with
  | none => ("created", ghPut s issue.id issue)
  | some old =>
    if needsUpdate old issue then ("updated", ghPut s issue.id issue)
    else ("unchanged", s)

/-- Modelled from the spec: the GitHub verb derivation lives in
`GitHubIssue.ToMarkdown` (called at main.go:636), whose defining file is not
among the repository files under src/. The spec says the verb is "computed
from the *specific* field that changed (e.g. if status field transitioned to
a terminal \"closed\"/\"merged\" value, verb = that terminal word; otherwise
verb = generic \"updated\")". A merged pull request reaches the terminal
value "merged": GitHub reports it with `state = "closed"` and `merged`
set, so the terminal word for a state transition to "closed" is "merged"
when `merged` holds and "closed" otherwise. -/
def deriveGitHubVerb (old new : GitHubIssue) : String :=
  if old.state ≠ new.state ∧ new.state = "closed" then
    (if new.merged then "merged" else "closed")
  else "updated"

/-- Per-record contribution of github.go `Sync` to the change batch that
`doSync` hands to the `onChange` callback: created and updated records are
collected (`result.Created`/`result.Updated`, emitted as their
concatenation), unchanged records only increment a counter. -/
def syncEmission (action : String) (issue : GitHubIssue) : List GitHubIssue :=
  if action = "created" ∨ action = "updated" then [issue] else []

/-! ## Google Calendar source (cmd/tm/calendar.go) -/

/-- A stored calendar event (calendar.go `CalendarEvent`). `End` is rendered
`endTime` (`end` is reserved); `verb` carries the Go field tagged `json:"-"`. -/
structure CalendarEvent where
  id : String
  calendarId : String
  calendarName : String
  title : String
  description : String
  location : String
  start : GoTime
  endTime : GoTime
  allDay : Bool
  attendees : List String
  meetLink : String
  status : String
  createdAt : GoTime
  updatedAt : GoTime
  verb : String
deriving DecidableEq

/-- What `json.Marshal` persists of an event: every field except `Verb`,
which is tagged `json:"-"` and therefore stored as the zero value. -/
def storedForm (e : CalendarEvent) : CalendarEvent := { e with verb := "" }

/-- The `calendar_events` bucket of calendar.db. -/
abbrev CalStore := String → Option CalendarEvent

/-- bbolt `b.Put(k, v)` on the calendar bucket. -/
def calPut (s : CalStore) (k : String) (v : CalendarEvent) : CalStore :=
  fun k2 => if k2 = k then some v else s k2

/-- calendar.go `needsCalendarUpdate`: tracked-field comparison. -/
def needsCalendarUpdate (old new : CalendarEvent) : Bool :=
  if old.title ≠ new.title then true
  else if !(timeEqual old.start new.start) then true
  else if !(timeEqual old.endTime new.endTime) then true
  else if old.location ≠ new.location then true
  else if old.status ≠ new.status then true
  else if timeAfter new.updatedAt old.updatedAt then true
  else false

/-- calendar.go `CalendarUpsertResult`: the classification and the transient
verb of one upsert. An unset verb is Go's zero value `""`. -/
structure CalendarUpsertResult where
  action : String
  verb : String
deriving DecidableEq

/-- calendar.go `upsert`: created when no snapshot exists; cancelled (checked
first) when the fetched status is "cancelled" and the stored one is not;
updated on any other tracked-field change; unchanged otherwise. -/
def calUpsert (s : CalStore) (event : CalendarEvent) : CalendarUpsertResult × CalStore :=
  match s event.id with
  | none => (⟨"created", "created"⟩, calPut s event.id (storedForm event))
  | some old =>
    if event.status = "cancelled" ∧ old.status ≠ "cancelled" then
      (⟨"cancelled", "cancelled"⟩, calPut s event.id (storedForm event))
    else if needsCalendarUpdate old event then
      (⟨"updated", "updated"⟩, calPut s event.id (storedForm event))
    else (⟨"unchanged", ""⟩, s)

/-- Per-record contribution of calendar.go `Sync` to the change batch that
`doSync` hands to `onChange`: created, updated and cancelled records are
collected and emitted; unchanged records only increment a counter. -/
def calSyncEmission (action : String) (event : CalendarEvent) : List CalendarEvent :=
  if action = "created" ∨ action = "updated" ∨ action = "cancelled" then [event] else []

/-! ## Readwise source (cmd/tm/readwise.go) -/

/-- A record of the Readwise API (readwise.go `ReadwiseDocument`): a parent
document, or a highlight when `parentId` is set. `ReadingProgress` is a
`float64` the sync logic never inspects, carried opaquely. -/
structure ReadwiseDocument where
  id : String
  title : String
  author : String
  category : String
  summary : String
  url : String
  sourceUrl : String
  readingProgress : Int
  parentId : Option String
  content : String
  note : String
  createdAt : GoTime
  updatedAt : GoTime
deriving DecidableEq

/-- readwise.go `storedDoc`: the per-document snapshot. `highlightIds` is the
key set of the Go `map[string]bool` (all stored values are `true`). -/
structure StoredDoc where
  highlightIds : List String
  updatedAt : GoTime
deriving DecidableEq

/-- The `documents` bucket of readwise.db. -/
abbrev RWStore := String → Option StoredDoc

/-- readwise.go `HighlightedDocument`: a document with its highlights as
returned by `Sync`. -/
structure HighlightedDocument where
  document : ReadwiseDocument
  highlights : List ReadwiseDocument
  isNew : Bool
deriving DecidableEq

/-- readwise.go `checkIfNew`: `(isNew, hasNewHighlights)`. A document with no
stored snapshot is new; otherwise it has new highlights when some fetched
highlight id is missing from the stored id set. -/
def checkIfNew (db : RWStore) (docId : String) (highlights : List ReadwiseDocument) :
    Bool × Bool :=
  match db docId with
  | none => (true, false)
  | some stored =>
    (false, highlights.any (fun h => !(stored.highlightIds.contains h.id)))

/-- readwise.go `storeDocState`: unconditionally rewrite the document's
snapshot with the fetched highlight id set and `UpdatedAt: time.Now()`. -/
def storeDocState (db : RWStore) (docId : String) (highlights : List ReadwiseDocument)
    (now : GoTime) : RWStore :=
  fun k => if k = docId then some ⟨highlights.map (fun h => h.id), now⟩ else db k

/-- The per-document body of the loop in readwise.go `Sync` (lines 112-131),
for a document that has at least one fetched highlight: classify via
`checkIfNew`, emit it when new or with new highlights, then always call
`storeDocState`. -/
def rwSyncDocStep (db : RWStore) (doc : ReadwiseDocument)
    (docHighlights : List ReadwiseDocument) (now : GoTime) :
    List HighlightedDocument × RWStore :=
  let r := checkIfNew db doc.id docHighlights
  let results : List HighlightedDocument :=
    if r.1 || r.2 then [⟨doc, docHighlights, r.1⟩] else []
  (results, storeDocState db doc.id docHighlights now)

/-! ## Delivery queue and server handlers (cmd/tm/main.go) -/

/-- main.go `QueueItem`. -/
structure QueueItem where
  id : String
  content : String
  action : String
  collection : String
  title : String
  createdAt : String
deriving DecidableEq

/-- The server's `map[string]QueueItem` in one iteration order: a list of
key/value pairs. -/
abbrev Queue := List (String × QueueItem)

/-- The key set of the queue map, in iteration order. -/
def qkeys (q : Queue) : List String := q.map Prod.fst

/-- Go map assignment `queue[k] = v`: replace the entry of an existing key
in place, otherwise add the pair. -/
def qinsert (q : Queue) (k : String) (v : QueueItem) : Queue :=
  if (qkeys q).contains k then
    q.map (fun kv => if kv.1 == k then (k, v) else kv)
  else q ++ [(k, v)]

/-- Go map read `queue[k]`. -/
def qlookup (q : Queue) (k : String) : Option QueueItem :=
  (q.find? (fun kv => kv.1 == k)).map Prod.snd

/-- One step of the oldest-key scan in main.go `popOldest`:
`if oldestID == "" || id < oldestID { oldestID = id }`. Go's `<` on strings
is byte-wise lexicographic order, embedded as the lexicographic order on the
character lists (the relation `String.lt` abbreviates). -/
def oldestStep (acc k : String) : String := if acc = "" ∨ k.data < acc.data then k else acc

/-- The `oldestID` main.go `popOldest` computes by scanning the map's keys. -/
def findOldestId (q : Queue) : String := (qkeys q).foldl oldestStep ""

/-- main.go `popOldest`: `nil` on an empty queue, otherwise remove and return
the entry at the scanned oldest key. -/
def popOldest (q : Queue) : Option QueueItem × Queue :=
  if q.isEmpty then (none, q)
  else (qlookup q (findOldestId q), q.filter (fun kv => kv.1 != findOldestId q))

/-- Repeatedly pop the queue (as the `/stream` drain loop does), collecting
the popped keys; `fuel` bounds the number of pops. -/
def drainIds : Nat → Queue → List String
  | 0, _ => []
  | _, [] => []
  | Nat.succ fuel, q => findOldestId q :: drainIds fuel (popOldest q).2

/-- Repeatedly pop the queue, collecting the popped items. -/
def drainItems : Nat → Queue → List QueueItem
  | 0, _ => []
  | _, [] => []
  | Nat.succ fuel, q =>
    match popOldest q with
    | (none, _) => []
    | (some item, q2) => item :: drainItems fuel q2

/-- The id main.go `handleQueue` generates:
`fmt.Sprintf("%d-%d", time.Now().UnixNano(), time.Now().UnixNano()%1000)`,
with the two clock reads passed in as `n1` and `n2`. -/
def genId (n1 n2 : Int) : String := toString n1 ++ "-" ++ toString (n2 % 1000)

/-- main.go `handleQueue`, POST path: check the token, decode the body
(`none` is malformed JSON, status 400), reject an empty `content` (400),
otherwise overwrite the id and creation time with server-generated values
and insert. The reply is `(status, id field of the success body)`. -/
def handleQueuePost (srvToken reqToken : String) (q : Queue) (body : Option QueueItem)
    (n1 n2 : Int) (nowStr : String) : (Nat × Option String) × Queue :=
  if reqToken ≠ srvToken then ((401, none), q)
  else
    match body with
    | none => ((400, none), q)
    | some req =>
      if req.content = "" then ((400, none), q)
      else
        let i := genId n1 n2
        ((200, some i), qinsert q i { req with id := i, createdAt := nowStr })

/-- The item main.go `queueGitHubChanges` builds per issue; the rendered
content (`issue.ToMarkdown()`, defined outside the files under src/) is an
opaque `render` parameter, and `genId`/`ts` stand for the per-iteration
`time.Now()` reads. -/
def githubQueueItem (render : GitHubIssue → String) (genid ts : String)
    (issue : GitHubIssue) : QueueItem :=
  { id := genid, content := render issue, action := "append", collection := "",
    title := issue.title, createdAt := ts }

/-- main.go `queueGitHubChanges`: insert one item per issue of the batch,
keyed by its generated id. -/
def queueGitHubChanges (render : GitHubIssue → String) (q : Queue)
    (batch : List (GitHubIssue × String × String)) : Queue :=
  batch.foldl (fun acc x => qinsert acc x.2.1 (githubQueueItem render x.2.1 x.2.2 x.1)) q

/-- The item main.go `queueCalendarChanges` builds per event (content via
`event.ToMarkdown()`, opaque here). -/
def calendarQueueItem (render : CalendarEvent → String) (genid ts : String)
    (event : CalendarEvent) : QueueItem :=
  { id := genid, content := render event, action := "append", collection := "",
    title := event.title, createdAt := ts }

/-- main.go `queueCalendarChanges`. -/
def queueCalendarChanges (render : CalendarEvent → String) (q : Queue)
    (batch : List (CalendarEvent × String × String)) : Queue :=
  batch.foldl (fun acc x => qinsert acc x.2.1 (calendarQueueItem render x.2.1 x.2.2 x.1)) q

/-- The item main.go `doReadwiseSync` builds per highlighted document. -/
def readwiseQueueItem (render : HighlightedDocument → String) (genid ts : String)
    (doc : HighlightedDocument) : QueueItem :=
  { id := genid, content := render doc, action := "append", collection := "",
    title := doc.document.title, createdAt := ts }

/-- The enqueue loop of main.go `doReadwiseSync`. -/
def queueReadwiseChanges (render : HighlightedDocument → String) (q : Queue)
    (batch : List (HighlightedDocument × String × String)) : Queue :=
  batch.foldl (fun acc x => qinsert acc x.2.1 (readwiseQueueItem render x.2.1 x.2.2 x.1)) q

/-! ## Basic facts about the upserters -/

/-- A record never differs from itself on any tracked field. -/
lemma needsUpdate_self (i : GitHubIssue) : needsUpdate i i = false := by
  simp [needsUpdate, timeAfter]

/-- Reading back the key just written. -/
lemma ghPut_self (s : GHStore) (k : String) (v : GitHubIssue) : ghPut s k v k = some v := by
  simp [ghPut]

/-- Reading back the key just written. -/
lemma calPut_self (s : CalStore) (k : String) (v : CalendarEvent) : calPut s k v k = some v := by
  simp [calPut]

@[simp] lemma storedForm_title (e : CalendarEvent) : (storedForm e).title = e.title := rfl

@[simp] lemma storedForm_start (e : CalendarEvent) : (storedForm e).start = e.start := rfl

@[simp] lemma storedForm_endTime (e : CalendarEvent) : (storedForm e).endTime = e.endTime := rfl

@[simp] lemma storedForm_location (e : CalendarEvent) : (storedForm e).location = e.location := rfl

@[simp] lemma storedForm_status (e : CalendarEvent) : (storedForm e).status = e.status := rfl

@[simp] lemma storedForm_updatedAt (e : CalendarEvent) : (storedForm e).updatedAt = e.updatedAt := rfl

/-- The persisted form of an event never differs from the event itself on
any tracked field. -/
lemma needsCalendarUpdate_storedForm (e : CalendarEvent) :
    needsCalendarUpdate (storedForm e) e = false := by
  simp [needsCalendarUpdate, timeEqual, timeAfter]

/-- Upserting a record whose snapshot is already stored byte-identically is
a no-op classified unchanged. -/
lemma upsert_again (s : GHStore) (i : GitHubIssue) (h : s i.id = some i) :
    upsert s i = ("unchanged", s) := by
  simp [upsert, h, needsUpdate_self]

/-- Upserting against a snapshot with no tracked-field difference is a no-op
classified unchanged. -/
lemma upsert_keeps (s : GHStore) (old i : GitHubIssue) (h : s i.id = some old)
    (hn : needsUpdate old i = false) : upsert s i = ("unchanged", s) := by
  simp [upsert, h, hn]

/-- Immediately repeating a GitHub upsert with the identical record yields
unchanged and leaves the store as the first call left it. -/
lemma upsert_idem (ghs : GHStore) (i : GitHubIssue) :
    upsert (upsert ghs i).2 i = ("unchanged", (upsert ghs i).2) := by
  rcases hm : ghs i.id with _ | old
  · have hsnd : (upsert ghs i).2 = ghPut ghs i.id i := by simp [upsert, hm]
    rw [hsnd]
    exact upsert_again _ _ (ghPut_self ghs i.id i)
  · cases hn : needsUpdate old i
    · have hsnd : (upsert ghs i).2 = ghs := by simp [upsert, hm, hn]
      rw [hsnd]
      exact upsert_keeps _ _ _ hm hn
    · have hsnd : (upsert ghs i).2 = ghPut ghs i.id i := by simp [upsert, hm, hn]
      rw [hsnd]
      exact upsert_again _ _ (ghPut_self ghs i.id i)

/-- Calendar upsert against a stored snapshot equal to the persisted form of
the fetched event is a no-op classified unchanged. -/
lemma calUpsert_again (s : CalStore) (e : CalendarEvent) (h : s e.id = some (storedForm e)) :
    calUpsert s e = (⟨"unchanged", ""⟩, s) := by
  have hnc : ¬(e.status = "cancelled" ∧ (storedForm e).status ≠ "cancelled") := by
    intro hcon
    exact hcon.2 (by rw [storedForm_status, hcon.1])
  simp [calUpsert, h, hnc, needsCalendarUpdate_storedForm]

/-- Calendar upsert against a snapshot that triggers neither cancellation
nor a tracked-field difference is a no-op classified unchanged. -/
lemma calUpsert_keeps (s : CalStore) (old e : CalendarEvent) (h : s e.id = some old)
    (hnc : ¬(e.status = "cancelled" ∧ old.status ≠ "cancelled"))
    (hn : needsCalendarUpdate old e = false) :
    calUpsert s e = (⟨"unchanged", ""⟩, s) := by
  simp [calUpsert, h, hnc, hn]

/-- Immediately repeating a calendar upsert with the identical event yields
unchanged and leaves the store as the first call left it. -/
lemma calUpsert_idem (cs : CalStore) (e : CalendarEvent) :
    calUpsert (calUpsert cs e).2 e = (⟨"unchanged", ""⟩, (calUpsert cs e).2) := by
  rcases hm : cs e.id with _ | old
  · have hsnd : (calUpsert cs e).2 = calPut cs e.id (storedForm e) := by simp [calUpsert, hm]
    rw [hsnd]
    exact calUpsert_again _ _ (calPut_self cs e.id (storedForm e))
  · by_cases hc : e.status = "cancelled" ∧ old.status ≠ "cancelled"
    · have hsnd : (calUpsert cs e).2 = calPut cs e.id (storedForm e) := by
        simp [calUpsert, hm, hc]
      rw [hsnd]
      exact calUpsert_again _ _ (calPut_self cs e.id (storedForm e))
    · cases hn : needsCalendarUpdate old e
      · have hsnd : (calUpsert cs e).2 = cs := by simp [calUpsert, hm, hc, hn]
        rw [hsnd]
        exact calUpsert_keeps _ _ _ hm hc hn
      · have hsnd : (calUpsert cs e).2 = calPut cs e.id (storedForm e) := by
          simp [calUpsert, hm, hc, hn]
        rw [hsnd]
        exact calUpsert_again _ _ (calPut_self cs e.id (storedForm e))

/-! ## Claim theorems: change detection (C1-C4) -/

/-- C1: for an issue or pull request with a stored snapshot whose state field
transitioned to a terminal value, the upsert classifies the record as updated
and the derived verb is the terminal word ("merged" for a merged pull request,
"closed" otherwise); when the state field did not change, any other
tracked-field change derives the generic verb "updated". -/
theorem github_terminal_transition_updated_with_terminal_verb
    (ghs : GHStore) (old i : GitHubIssue)
    (h : ghs i.id = some old) (hst : old.state ≠ i.state) :
    (upsert ghs i).1 = "updated" ∧
    deriveGitHubVerb old i =
      (if i.state = "closed" then (if i.merged then "merged" else "closed") else "updated") ∧
    ∀ o2 i2 : GitHubIssue, o2.state = i2.state → deriveGitHubVerb o2 i2 = "updated" := by
  refine ⟨?_, ?_, ?_⟩
  · simp [upsert, h, needsUpdate, hst]
  · by_cases hcl : i.state = "closed"
    · have hst2 : old.state ≠ "closed" := hcl ▸ hst
      simp [deriveGitHubVerb, hcl, hst2]
    · simp [deriveGitHubVerb, hcl]
  · intro o2 i2 he
    simp [deriveGitHubVerb, he]

/-- Fixed GitHub snapshot used to instantiate the claim theorems. -/
def ghOld : GitHubIssue :=
  { id := "github_acme_repo_9", repo := "acme/repo", number := 9, title := "Bug",
    body := "", state := "open", type := "issue", url := "", author := "octo",
    labels := [], createdAt := 0, updatedAt := 10, closedAt := none, merged := false }

/-- The same issue fetched again after it was closed. -/
def ghClosed : GitHubIssue :=
  { ghOld with state := "closed", updatedAt := 20, closedAt := some 20 }

/-- A GitHub store holding only the snapshot of `ghOld`. -/
def ghStore0 : GHStore := fun k => if k = "github_acme_repo_9" then some ghOld else none

/-- C1 witness: issue #9 stored open and fetched closed is classified
updated with derived verb "closed". -/
theorem github_terminal_transition_witness :
    (upsert ghStore0 ghClosed).1 = "updated" ∧
    deriveGitHubVerb ghOld ghClosed =
      (if ghClosed.state = "closed" then
        (if ghClosed.merged then "merged" else "closed") else "updated") ∧
    ∀ o2 i2 : GitHubIssue, o2.state = i2.state → deriveGitHubVerb o2 i2 = "updated" :=
  github_terminal_transition_updated_with_terminal_verb ghStore0 ghOld ghClosed
    (by decide) (by decide)

/-- The GitHub upsert leaves the store untouched exactly when it classifies
the record unchanged; equivalently, a write happens only on the created and
updated paths. -/
lemma upsert_unchanged_iff (ghs : GHStore) (i : GitHubIssue) :
    (upsert ghs i).1 = "unchanged" ↔ (upsert ghs i).2 = ghs := by
  rcases hm : ghs i.id with _ | old
  · have heq : upsert ghs i = ("created", ghPut ghs i.id i) := by simp [upsert, hm]
    rw [heq]
    constructor
    · intro hcon
      simp at hcon
    · intro hcon
      have h2 : ghPut ghs i.id i i.id = ghs i.id := congrFun hcon i.id
      rw [ghPut_self, hm] at h2
      exact absurd h2 (by simp)
  · cases hn : needsUpdate old i
    · have heq : upsert ghs i = ("unchanged", ghs) := by simp [upsert, hm, hn]
      rw [heq]
      exact ⟨fun _ => rfl, fun _ => rfl⟩
    · have heq : upsert ghs i = ("updated", ghPut ghs i.id i) := by simp [upsert, hm, hn]
      rw [heq]
      constructor
      · intro hcon
        simp at hcon
      · intro hcon
        have h2 : ghPut ghs i.id i i.id = ghs i.id := congrFun hcon i.id
        rw [ghPut_self, hm] at h2
        rw [Option.some_injective _ h2] at hn
        rw [needsUpdate_self] at hn
        exact absurd hn (by simp)

/-- The calendar upsert leaves the store untouched exactly when it
classifies the event unchanged; a write happens only on the created, updated
and cancelled paths. -/
lemma calUpsert_unchanged_iff (cs : CalStore) (e : CalendarEvent) :
    (calUpsert cs e).1.action = "unchanged" ↔ (calUpsert cs e).2 = cs := by
  rcases hm : cs e.id with _ | old
  · have heq : calUpsert cs e = (⟨"created", "created"⟩, calPut cs e.id (storedForm e)) := by
      simp [calUpsert, hm]
    rw [heq]
    constructor
    · intro hcon
      simp at hcon
    · intro hcon
      have h2 : calPut cs e.id (storedForm e) e.id = cs e.id := congrFun hcon e.id
      rw [calPut_self, hm] at h2
      exact absurd h2 (by simp)
  · by_cases hc : e.status = "cancelled" ∧ old.status ≠ "cancelled"
    · have heq : calUpsert cs e = (⟨"cancelled", "cancelled"⟩, calPut cs e.id (storedForm e)) := by
        simp [calUpsert, hm, hc]
      rw [heq]
      constructor
      · intro hcon
        simp at hcon
      · intro hcon
        have h2 : calPut cs e.id (storedForm e) e.id = cs e.id := congrFun hcon e.id
        rw [calPut_self, hm] at h2
        have h3 : old = storedForm e := (Option.some_injective _ h2).symm
        exact absurd (by rw [h3, storedForm_status]; exact hc.1) hc.2
    · cases hn : needsCalendarUpdate old e
      · have heq : calUpsert cs e = (⟨"unchanged", ""⟩, cs) := by simp [calUpsert, hm, hc, hn]
        rw [heq]
        exact ⟨fun _ => rfl, fun _ => rfl⟩
      · have heq : calUpsert cs e = (⟨"updated", "updated"⟩, calPut cs e.id (storedForm e)) := by
          simp [calUpsert, hm, hc, hn]
        rw [heq]
        constructor
        · intro hcon
          simp at hcon
        · intro hcon
          have h2 : calPut cs e.id (storedForm e) e.id = cs e.id := congrFun hcon e.id
          rw [calPut_self, hm] at h2
          rw [(Option.some_injective _ h2).symm] at hn
          rw [needsCalendarUpdate_storedForm] at hn
          exact absurd hn (by simp)

/-! ## Claim theorems: frame of the unchanged path (C2) -/

/-- C2 (amended): for the GitHub and calendar upserts, a record classified
unchanged leaves the stored snapshot exactly as it was, and snapshot writes
happen only on the created, updated and cancelled paths; the Readwise sync,
however, rewrites the stored document state — with the fetched highlight id
set and a fresh timestamp — on every sync of a highlighted document,
including when the document counts as unchanged and is not emitted. -/
theorem upsert_unchanged_frame (ghs : GHStore) (i : GitHubIssue)
    (cs : CalStore) (e : CalendarEvent) (db : RWStore) (doc : ReadwiseDocument)
    (hs : List ReadwiseDocument) (now : GoTime) :
    ((upsert ghs i).1 = "unchanged" ↔ (upsert ghs i).2 = ghs) ∧
    ((calUpsert cs e).1.action = "unchanged" ↔ (calUpsert cs e).2 = cs) ∧
    (rwSyncDocStep db doc hs now).2 doc.id = some ⟨hs.map (fun h => h.id), now⟩ := by
  refine ⟨upsert_unchanged_iff ghs i, calUpsert_unchanged_iff cs e, ?_⟩
  simp [rwSyncDocStep, storeDocState]

/-- The Readwise document snapshot stored before the counterexample sync:
highlight id set {A}, written at instant 0. -/
def rwStored0 : StoredDoc := ⟨["A"], 0⟩

/-- A Readwise store holding only the snapshot of document doc1. -/
def rwDb0 : RWStore := fun k => if k = "doc1" then some rwStored0 else none

/-- The parent document doc1 as fetched. -/
def rwDoc1 : ReadwiseDocument :=
  { id := "doc1", title := "Paper", author := "", category := "article", summary := "",
    url := "", sourceUrl := "", readingProgress := 0, parentId := none, content := "",
    note := "", createdAt := 0, updatedAt := 0 }

/-- The one highlight of doc1, already part of the stored id set. -/
def rwHighlightA : ReadwiseDocument := { rwDoc1 with id := "A", parentId := some "doc1" }

/-- C2 counterexample: syncing document doc1 again at instant 1 with the
identical highlight set {A} emits nothing (the document counts as
unchanged), yet the store after the sync differs from the store before it:
the snapshot was rewritten with UpdatedAt = 1. -/
theorem readwise_unchanged_still_writes :
    (rwSyncDocStep rwDb0 rwDoc1 [rwHighlightA] 1).1 = [] ∧
    (rwSyncDocStep rwDb0 rwDoc1 [rwHighlightA] 1).2 ≠ rwDb0 := by
  constructor
  · decide
  · intro hcon
    exact absurd (congrFun hcon "doc1") (by decide)

/-! ## Claim theorems: idempotence (C3) -/

/-- C3: immediately repeating an upsert with a byte-identical fetched record
classifies the record unchanged on the second call, leaves the store as the
first call left it, and contributes nothing to the emitted change batch —
for the GitHub source and for the calendar source. -/
theorem second_upsert_unchanged_zero_emissions (ghs : GHStore) (i : GitHubIssue)
    (cs : CalStore) (e : CalendarEvent) :
    (upsert (upsert ghs i).2 i).1 = "unchanged" ∧
    (upsert (upsert ghs i).2 i).2 = (upsert ghs i).2 ∧
    syncEmission (upsert (upsert ghs i).2 i).1 i = [] ∧
    (calUpsert (calUpsert cs e).2 e).1.action = "unchanged" ∧
    (calUpsert (calUpsert cs e).2 e).2 = (calUpsert cs e).2 ∧
    calSyncEmission (calUpsert (calUpsert cs e).2 e).1.action e = [] := by
  rw [upsert_idem, calUpsert_idem]
  refine ⟨rfl, rfl, ?_, rfl, rfl, ?_⟩
  · simp [syncEmission]
  · simp [calSyncEmission]

/-! ## Claim theorems: calendar cancellation (C4) -/

/-- C4: for a fetched event whose status is "cancelled" and whose snapshot
is stored, the upsert classifies it cancelled with verb "cancelled" whenever
the stored status is not yet "cancelled" — regardless of whether other
tracked fields such as the title changed, so cancellation takes priority
over the updated path; when the stored status is already "cancelled", the
event is updated or unchanged according to the tracked-field comparison. -/
theorem calendar_cancellation_priority (cs : CalStore) (old e : CalendarEvent)
    (h : cs e.id = some old) (hc : e.status = "cancelled") :
    ((calUpsert cs e).1.action, (calUpsert cs e).1.verb) =
      (if old.status = "cancelled" then
        (if needsCalendarUpdate old e then ("updated", "updated") else ("unchanged", ""))
       else ("cancelled", "cancelled")) := by
  by_cases ho : old.status = "cancelled"
  · cases hn : needsCalendarUpdate old e <;> simp [calUpsert, h, hc, ho, hn]
  · simp [calUpsert, h, hc, ho]

/-- A confirmed calendar event as first stored. -/
def calConfirmed : CalendarEvent :=
  { id := "gcal_ev1", calendarId := "primary", calendarName := "Primary",
    title := "Standup", description := "", location := "", start := 100,
    endTime := 200, allDay := false, attendees := [], meetLink := "",
    status := "confirmed", createdAt := 0, updatedAt := 10, verb := "" }

/-- The same event fetched cancelled, with its title also changed. -/
def calCancelled : CalendarEvent :=
  { calConfirmed with status := "cancelled", title := "Standup (moved)", updatedAt := 20 }

/-- A calendar store holding only the snapshot of `calConfirmed`. -/
def calStore0 : CalStore := fun k => if k = "gcal_ev1" then some calConfirmed else none

/-- C4 witness: the stored-confirmed, fetched-cancelled event (whose title
also changed) classifies as cancelled with verb "cancelled". -/
theorem calendar_cancellation_witness :
    ((calUpsert calStore0 calCancelled).1.action, (calUpsert calStore0 calCancelled).1.verb) =
      (if calConfirmed.status = "cancelled" then
        (if needsCalendarUpdate calConfirmed calCancelled then ("updated", "updated")
         else ("unchanged", ""))
       else ("cancelled", "cancelled")) :=
  calendar_cancellation_priority calStore0 calConfirmed calCancelled (by decide) (by decide)

/-! ## Claim theorems: Readwise child-addition detection (C7) -/

/-- C7: for a parent document with a stored snapshot, the sync emits the
document (with IsNew = false) exactly when some fetched highlight id is
missing from the stored child-id set; in particular a fetched child set that
is a subset of the stored set emits nothing. -/
theorem readwise_child_addition_detection (db : RWStore) (doc : ReadwiseDocument)
    (hs : List ReadwiseDocument) (stored : StoredDoc) (now : GoTime)
    (h : db doc.id = some stored) :
    (rwSyncDocStep db doc hs now).1 =
      (if hs.any (fun x => !(stored.highlightIds.contains x.id)) then
        [⟨doc, hs, false⟩] else []) := by
  simp only [rwSyncDocStep, checkIfNew, h]
  cases hany : hs.any (fun x => !(stored.highlightIds.contains x.id)) <;> simp [hany]

/-- The stored snapshot of document doc2: child-id set {A, B}. -/
def rwStoredAB : StoredDoc := ⟨["A", "B"], 0⟩

/-- A Readwise store holding only the snapshot of doc2. -/
def rwDbAB : RWStore := fun k => if k = "doc2" then some rwStoredAB else none

/-- The parent document doc2 as fetched. -/
def rwDoc2 : ReadwiseDocument := { rwDoc1 with id := "doc2" }

/-- Fetched highlight A of doc2. -/
def rwHiA : ReadwiseDocument := { rwDoc1 with id := "A", parentId := some "doc2" }

/-- Fetched highlight B of doc2. -/
def rwHiB : ReadwiseDocument := { rwDoc1 with id := "B", parentId := some "doc2" }

/-- Fetched highlight C of doc2, not yet in the stored set. -/
def rwHiC : ReadwiseDocument := { rwDoc1 with id := "C", parentId := some "doc2" }

/-- C7 witness: doc2 with stored child set {A, B} fetched with children
{A, B, C} is emitted with IsNew = false; fetched with {A, B} it is not
emitted. -/
theorem readwise_child_addition_witness :
    (rwSyncDocStep rwDbAB rwDoc2 [rwHiA, rwHiB, rwHiC] 7).1 =
      [⟨rwDoc2, [rwHiA, rwHiB, rwHiC], false⟩] ∧
    (rwSyncDocStep rwDbAB rwDoc2 [rwHiA, rwHiB] 7).1 = [] := by
  constructor
  · rw [readwise_child_addition_detection rwDbAB rwDoc2 [rwHiA, rwHiB, rwHiC] rwStoredAB 7
      (by decide)]
    decide
  · rw [readwise_child_addition_detection rwDbAB rwDoc2 [rwHiA, rwHiB] rwStoredAB 7
      (by decide)]
    decide

/-! ## Claim theorems: POST /queue (C8, C9) -/

/-- C8: an authenticated POST /queue whose item has empty content is
rejected with status 400 and the queue is not mutated; with non-empty
content it succeeds with status 200 and exactly the one server-keyed item is
appended (the generated id is fresh by hypothesis, as the nanosecond clock
makes it in practice). -/
theorem queue_post_content_required_atomic (tok nowStr : String) (q : Queue)
    (req : QueueItem) (n1 n2 : Int)
    (hfresh : (qkeys q).contains (genId n1 n2) = false) :
    handleQueuePost tok tok q (some req) n1 n2 nowStr =
      (if req.content = "" then ((400, none), q)
       else ((200, some (genId n1 n2)),
         q ++ [(genId n1 n2, { req with id := genId n1 n2, createdAt := nowStr })])) := by
  by_cases hc : req.content = ""
  · simp [handleQueuePost, hc]
  · have hmem : genId n1 n2 ∉ qkeys q := by simpa using hfresh
    simp [handleQueuePost, hc, qinsert, hfresh, hmem]

/-- A client-submitted item with non-empty content. -/
def wreq : QueueItem :=
  { id := "client-id", content := "hello", action := "append", collection := "",
    title := "", createdAt := "client-time" }

/-- A client-submitted item missing the required content field. -/
def wreqEmpty : QueueItem := { wreq with content := "" }

/-- C8 witness: the empty-content request is rejected with 400 leaving the
queue empty; the non-empty one succeeds with the server-generated id and
appends exactly one item. -/
theorem queue_post_content_required_witness :
    handleQueuePost "tok" "tok" [] (some wreqEmpty) 100 200 "now" = ((400, none), ([] : Queue)) ∧
    handleQueuePost "tok" "tok" [] (some wreq) 100 200 "now" =
      ((200, some "100-200"),
        [("100-200", { wreq with id := "100-200", createdAt := "now" })]) := by
  constructor
  · rw [queue_post_content_required_atomic "tok" "now" [] wreqEmpty 100 200 (by decide)]
    decide
  · rw [queue_post_content_required_atomic "tok" "now" [] wreq 100 200 (by decide)]
    decide

/-- C9: POST /queue discards the client-supplied id and createdAt — two
requests that differ only in those fields behave identically — and the id
the success response reports is the server-generated timestamp-derived one. -/
theorem queue_post_discards_client_id (tok nowStr : String) (q : Queue)
    (req1 req2 : QueueItem) (n1 n2 : Int)
    (hsame : req1.content = req2.content ∧ req1.action = req2.action ∧
      req1.collection = req2.collection ∧ req1.title = req2.title) :
    handleQueuePost tok tok q (some req1) n1 n2 nowStr =
      handleQueuePost tok tok q (some req2) n1 n2 nowStr ∧
    (handleQueuePost tok tok q (some req1) n1 n2 nowStr).1.2 =
      (if req1.content = "" then none else some (genId n1 n2)) := by
  obtain ⟨h1, h2, h3, h4⟩ := hsame
  obtain ⟨a1, c1, x1, l1, t1, d1⟩ := req1
  obtain ⟨a2, c2, x2, l2, t2, d2⟩ := req2
  simp only at h1 h2 h3 h4
  subst h1
  subst h2
  subst h3
  subst h4
  constructor
  · by_cases hc : c1 = "" <;> simp [handleQueuePost, hc]
  · by_cases hc : c1 = "" <;> simp [handleQueuePost, hc]

/-- The same payload as `wreq` under different client-chosen id and
createdAt. -/
def wreqAlt : QueueItem := { wreq with id := "other-id", createdAt := "other-time" }

/-- C9 witness: submitting `wreq` and `wreqAlt` (same payload, different
client id/createdAt) yields identical server behavior, and the reported id
is the generated "100-200", not the client's. -/
theorem queue_post_discards_client_id_witness :
    handleQueuePost "tok" "tok" [] (some wreq) 100 200 "now" =
      handleQueuePost "tok" "tok" [] (some wreqAlt) 100 200 "now" ∧
    (handleQueuePost "tok" "tok" [] (some wreq) 100 200 "now").1.2 =
      (if wreq.content = "" then none else some (genId 100 200)) :=
  queue_post_discards_client_id "tok" "now" [] wreq wreqAlt 100 200 (by decide)

/-! ## Facts about the oldest-key scan and the queue map -/

/-- The scan step phrased with the order on `String` itself. -/
lemma oldestStep_eq (acc k : String) :
    oldestStep acc k = if acc = "" ∨ k < acc then k else acc := by
  unfold oldestStep
  exact if_congr (or_congr Iff.rfl (Iff.symm String.lt_iff_toList_lt)) rfl rfl

/-- The scan always lands on its accumulator or one of the scanned keys. -/
lemma foldl_oldestStep_mem (l : List String) (acc : String) :
    l.foldl oldestStep acc ∈ acc :: l := by
  induction l generalizing acc with
  | nil => simp
  | cons k t ih =>
    rw [List.foldl_cons]
    have hstep : oldestStep acc k = k ∨ oldestStep acc k = acc := by
      rw [oldestStep_eq]
      split
      · exact Or.inl rfl
      · exact Or.inr rfl
    rcases List.mem_cons.mp (ih (oldestStep acc k)) with h | h
    · rcases hstep with h2 | h2
      · rw [h, h2]
        simp
      · rw [h, h2]
        simp
    · simp [h]

/-- With a nonempty accumulator and no empty key, the scan computes a lower
bound of the accumulator and every scanned key. -/
lemma foldl_oldestStep_le (l : List String) (acc : String) (hacc : acc ≠ "")
    (hl : "" ∉ l) : ∀ x ∈ acc :: l, l.foldl oldestStep acc ≤ x := by
  induction l generalizing acc with
  | nil =>
    intro x hx
    simp at hx
    simp [hx]
  | cons k t ih =>
    intro x hx
    rw [List.foldl_cons]
    have hk : k ≠ "" := fun h => hl (h ▸ List.mem_cons_self k t)
    have ht : "" ∉ t := fun h => hl (List.mem_cons_of_mem k h)
    have hstep_ne : oldestStep acc k ≠ "" := by
      rw [oldestStep_eq]
      split
      · exact hk
      · exact hacc
    have hle_acc : oldestStep acc k ≤ acc := by
      rw [oldestStep_eq]
      split
      · rename_i hcond
        rcases hcond with hc | hc
        · exact absurd hc hacc
        · exact le_of_lt hc
      · exact le_refl acc
    have hle_k : oldestStep acc k ≤ k := by
      rw [oldestStep_eq]
      split
      · exact le_refl k
      · rename_i hcond
        push_neg at hcond
        exact le_of_not_lt hcond.2
    have hmain := ih (oldestStep acc k) hstep_ne ht
    rcases List.mem_cons.mp hx with h | h
    · rw [h]
      exact le_trans (hmain _ (List.mem_cons_self _ _)) hle_acc
    · rcases List.mem_cons.mp h with h2 | h2
      · rw [h2]
        exact le_trans (hmain _ (List.mem_cons_self _ _)) hle_k
      · exact hmain _ (List.mem_cons_of_mem _ h2)

/-- On a nonempty queue the scanned oldest id is one of the keys. -/
lemma findOldestId_mem (q : Queue) (hq : q ≠ []) : findOldestId q ∈ qkeys q := by
  unfold findOldestId
  rcases hk : qkeys q with _ | ⟨k, t⟩
  · exact absurd (List.map_eq_nil_iff.mp hk) hq
  · rw [List.foldl_cons]
    have h0 : oldestStep "" k = k := by
      rw [oldestStep_eq]
      simp
    rw [h0]
    exact foldl_oldestStep_mem t k

/-- When no key is the empty string, the scanned oldest id is the least key. -/
lemma findOldestId_le (q : Queue) (hne : "" ∉ qkeys q) :
    ∀ x ∈ qkeys q, findOldestId q ≤ x := by
  unfold findOldestId
  rcases hk : qkeys q with _ | ⟨k, t⟩
  · intro x hx
    simp at hx
  · rw [List.foldl_cons]
    have h0 : oldestStep "" k = k := by
      rw [oldestStep_eq]
      simp
    rw [h0]
    rw [hk] at hne
    have hkne : k ≠ "" := fun h => hne (h ▸ List.mem_cons_self k t)
    have htne : "" ∉ t := fun h => hne (List.mem_cons_of_mem k h)
    exact foldl_oldestStep_le t k hkne htne

/-- The queue a pop leaves behind, with the deletion written as a filter
(deleting from the empty queue is also a filter). -/
lemma popOldest_snd (q : Queue) :
    (popOldest q).2 = q.filter (fun kv => kv.1 != findOldestId q) := by
  cases q with
  | nil => simp [popOldest]
  | cons a t => simp [popOldest]

/-- Keys of a filtered queue are keys of the queue. -/
lemma qkeys_filter_sub (q : Queue) (p : String × QueueItem → Bool) :
    ∀ x ∈ qkeys (q.filter p), x ∈ qkeys q := by
  intro x hx
  rw [qkeys, List.mem_map] at hx
  obtain ⟨kv, hmem, hfst⟩ := hx
  rw [qkeys, List.mem_map]
  exact ⟨kv, (List.mem_filter.mp hmem).1, hfst⟩

/-- Every id a drain pops is a key of the starting queue. -/
lemma drainIds_mem_keys : ∀ (fuel : Nat) (q : Queue), ∀ x ∈ drainIds fuel q, x ∈ qkeys q := by
  intro fuel
  induction fuel with
  | zero =>
    intro q x hx
    simp [drainIds] at hx
  | succ n ih =>
    intro q x hx
    match q with
    | [] => simp [drainIds] at hx
    | kv :: t =>
      rw [show drainIds (n + 1) (kv :: t) =
            findOldestId (kv :: t) :: drainIds n (popOldest (kv :: t)).2 from rfl] at hx
      rcases List.mem_cons.mp hx with h | h
      · rw [h]
        exact findOldestId_mem _ (by simp)
      · have h2 := ih _ x h
        rw [popOldest_snd] at h2
        exact qkeys_filter_sub _ _ x h2

/-- When no key is the empty string, draining the queue yields its keys in
non-decreasing order. -/
lemma drainIds_sorted : ∀ (fuel : Nat) (q : Queue), "" ∉ qkeys q →
    List.Sorted (fun a b : String => a ≤ b) (drainIds fuel q) := by
  intro fuel
  induction fuel with
  | zero =>
    intro q _
    simp [drainIds]
  | succ n ih =>
    intro q hne
    match q with
    | [] => simp [drainIds]
    | kv :: t =>
      rw [show drainIds (n + 1) (kv :: t) =
            findOldestId (kv :: t) :: drainIds n (popOldest (kv :: t)).2 from rfl,
        List.sorted_cons]
      constructor
      · intro b hb
        have hb2 := drainIds_mem_keys n _ b hb
        rw [popOldest_snd] at hb2
        exact findOldestId_le _ hne b (qkeys_filter_sub _ _ b hb2)
      · apply ih
        intro hcon
        rw [popOldest_snd] at hcon
        exact hne (qkeys_filter_sub _ _ _ hcon)

/-- Looking up a key of the queue finds the first entry carrying that key. -/
lemma qlookup_mem (q : Queue) (k : String) (hk : k ∈ qkeys q) :
    ∃ kv, kv ∈ q ∧ q.find? (fun kv => kv.1 == k) = some kv ∧ kv.1 = k := by
  induction q with
  | nil => simp [qkeys] at hk
  | cons a t ih =>
    by_cases ha : a.1 = k
    · refine ⟨a, List.mem_cons_self a t, ?_, ha⟩
      simp [List.find?_cons, ha]
    · have hk2 : k ∈ qkeys t := by
        rw [qkeys, List.map_cons, List.mem_cons] at hk
        rcases hk with h | h
        · exact absurd h.symm ha
        · exact h
      obtain ⟨kv, hm, hf, he⟩ := ih hk2
      refine ⟨kv, List.mem_cons_of_mem a hm, ?_, he⟩
      simp [List.find?_cons, ha, hf]

/-- On a nonempty queue, the popped item is the lookup at the oldest key. -/
lemma popOldest_fst (q : Queue) (hq : q ≠ []) :
    (popOldest q).1 = qlookup q (findOldestId q) := by
  unfold popOldest
  rw [if_neg]
  simpa using hq

/-! ## Claim theorems: queue ordering and at-most-once pop (C5, C6) -/

/-- A queue item popped third in the ordering scenario. -/
def itemX : QueueItem :=
  { id := "3", content := "cx", action := "append", collection := "", title := "",
    createdAt := "t3" }

/-- A queue item popped first in the ordering scenario. -/
def itemY : QueueItem :=
  { id := "1", content := "cy", action := "append", collection := "", title := "",
    createdAt := "t1" }

/-- A queue item popped second in the ordering scenario. -/
def itemZ : QueueItem :=
  { id := "2", content := "cz", action := "append", collection := "", title := "",
    createdAt := "t2" }

/-- C5: as long as no identifier is the empty string, `popOldest` removes
and returns the entry at the least identifier currently in the queue, and
repeatedly popping delivers identifiers in non-decreasing order; enqueued in
insertion order [3, 1, 2], the items pop in ascending order [1, 2, 3]. -/
theorem pop_oldest_ascending_order (q : Queue) (hne : "" ∉ qkeys q) :
    (∀ kv ∈ q, findOldestId q ≤ kv.1) ∧
    (popOldest q).2 = q.filter (fun kv => kv.1 != findOldestId q) ∧
    List.Sorted (fun a b : String => a ≤ b) (drainIds q.length q) ∧
    drainIds 3 [("3", itemX), ("1", itemY), ("2", itemZ)] = ["1", "2", "3"] ∧
    drainItems 3 [("3", itemX), ("1", itemY), ("2", itemZ)] = [itemY, itemZ, itemX] := by
  refine ⟨?_, popOldest_snd q, drainIds_sorted q.length q hne, by decide, by decide⟩
  intro kv hkv
  exact findOldestId_le q hne kv.1 (List.mem_map_of_mem Prod.fst hkv)

/-- The ordering-scenario queue, inserted out of order. -/
def wq : Queue := [("3", itemX), ("1", itemY), ("2", itemZ)]

/-- C5 witness: the ordering guarantee instantiated on the out-of-order
queue [3, 1, 2]. -/
theorem pop_oldest_ascending_witness :
    (∀ kv ∈ wq, findOldestId wq ≤ kv.1) ∧
    (popOldest wq).2 = wq.filter (fun kv => kv.1 != findOldestId wq) ∧
    List.Sorted (fun a b : String => a ≤ b) (drainIds wq.length wq) ∧
    drainIds 3 [("3", itemX), ("1", itemY), ("2", itemZ)] = ["1", "2", "3"] ∧
    drainItems 3 [("3", itemX), ("1", itemY), ("2", itemZ)] = [itemY, itemZ, itemX] :=
  pop_oldest_ascending_order wq (by decide)

/-- C6: on a queue whose entries carry their own key as id (as every server
enqueue path arranges), a pop returns an item that is no longer in the
remaining queue, so an immediately following pop returns either the empty
result or an item with a different identifier — never the same item again. -/
theorem pop_at_most_once (q : Queue) (hq : q ≠ [])
    (hids : ∀ kv ∈ q, kv.2.id = kv.1) :
    ∃ item, (popOldest q).1 = some item ∧
      (∀ kv ∈ (popOldest q).2, kv.1 ≠ item.id) ∧
      ∀ item2, (popOldest (popOldest q).2).1 = some item2 → item2.id ≠ item.id := by
  obtain ⟨kv, hkvmem, hfind, hkey⟩ := qlookup_mem q (findOldestId q) (findOldestId_mem q hq)
  have hitem_id : kv.2.id = findOldestId q := by rw [hids kv hkvmem, hkey]
  refine ⟨kv.2, ?_, ?_, ?_⟩
  · rw [popOldest_fst q hq, qlookup, hfind]
    rfl
  · intro kv2 hkv2
    rw [hitem_id]
    rw [popOldest_snd] at hkv2
    have := (List.mem_filter.mp hkv2).2
    simpa using this
  · intro item2 hitem2
    have hq1ne : (popOldest q).2 ≠ [] := by
      intro hcon
      rw [hcon] at hitem2
      simp [popOldest] at hitem2
    obtain ⟨kv2, hkv2mem, hfind2, hkey2⟩ :=
      qlookup_mem (popOldest q).2 (findOldestId (popOldest q).2)
        (findOldestId_mem (popOldest q).2 hq1ne)
    have hitem2_eq : item2 = kv2.2 := by
      rw [popOldest_fst _ hq1ne, qlookup, hfind2] at hitem2
      exact (Option.some_injective _ hitem2).symm
    have hkv2q : kv2 ∈ q := by
      rw [popOldest_snd] at hkv2mem
      exact (List.mem_filter.mp hkv2mem).1
    have hkv2ne : kv2.1 ≠ findOldestId q := by
      rw [popOldest_snd] at hkv2mem
      have := (List.mem_filter.mp hkv2mem).2
      simpa using this
    rw [hitem2_eq, hids kv2 hkv2q, hkey2, hitem_id]
    rw [← hkey2]
    exact hkv2ne

/-- C6 witness: instantiated on the concrete queue [3, 1, 2]. -/
theorem pop_at_most_once_witness :
    ∃ item, (popOldest wq).1 = some item ∧
      (∀ kv ∈ (popOldest wq).2, kv.1 ≠ item.id) ∧
      ∀ item2, (popOldest (popOldest wq).2).1 = some item2 → item2.id ≠ item.id :=
  pop_at_most_once wq (by decide) (by decide)

/-! ## The one-item-per-identifier invariant (C10) -/

/-- Map assignment either keeps the key list (key present) or appends the
new key (key absent). -/
lemma qkeys_qinsert (q : Queue) (k : String) (v : QueueItem) :
    qkeys (qinsert q k v) =
      if (qkeys q).contains k then qkeys q else qkeys q ++ [k] := by
  unfold qinsert
  split
  · rw [qkeys, List.map_map]
    apply List.map_congr_left
    intro kv _
    by_cases h : kv.1 = k
    · simp [h]
    · simp [h]
  · simp [qkeys]

/-- Map assignment preserves distinctness of the keys. -/
lemma qkeys_qinsert_nodup (q : Queue) (k : String) (v : QueueItem)
    (h : (qkeys q).Nodup) : (qkeys (qinsert q k v)).Nodup := by
  rw [qkeys_qinsert]
  split
  · exact h
  · rename_i hcon
    have hmem : k ∉ qkeys q := by simpa using hcon
    simp [List.nodup_append, h, hmem]

/-- Assigning to a key already present does not grow the map. -/
lemma qinsert_length_mem (q : Queue) (k : String) (v : QueueItem)
    (h : k ∈ qkeys q) : (qinsert q k v).length = q.length := by
  unfold qinsert
  rw [if_pos (by simpa using h)]
  simp

/-- Looking up a key that was just assigned over an existing entry yields
the new value. -/
lemma qlookup_map_replace (q : Queue) (k : String) (v : QueueItem)
    (h : k ∈ qkeys q) :
    qlookup (q.map (fun kv => if kv.1 == k then (k, v) else kv)) k = some v := by
  induction q with
  | nil => simp [qkeys] at h
  | cons a t ih =>
    by_cases ha : a.1 = k
    · simp [qlookup, List.map_cons, List.find?_cons, ha]
    · have h2 : k ∈ qkeys t := by
        rw [qkeys, List.map_cons, List.mem_cons] at h
        rcases h with hh | hh
        · exact absurd hh.symm ha
        · exact hh
      have := ih h2
      simpa [qlookup, List.map_cons, List.find?_cons, ha] using this

/-- Looking up a key just appended to a map that lacked it yields the new
value. -/
lemma qlookup_append_single (q : Queue) (k : String) (v : QueueItem)
    (h : k ∉ qkeys q) : qlookup (q ++ [(k, v)]) k = some v := by
  induction q with
  | nil => simp [qlookup]
  | cons a t ih =>
    have ha : ¬(a.1 = k) := by
      intro hcon
      exact h (by rw [qkeys, List.map_cons, ← hcon]; exact List.mem_cons_self _ _)
    have ht : k ∉ qkeys t := fun hcon => h (by
      rw [qkeys, List.map_cons]
      exact List.mem_cons_of_mem _ hcon)
    have := ih ht
    simpa [qlookup, List.find?_cons, ha] using this

/-- Map assignment stores exactly the assigned value under the key. -/
lemma qlookup_qinsert (q : Queue) (k : String) (v : QueueItem) :
    qlookup (qinsert q k v) k = some v := by
  unfold qinsert
  split
  · rename_i hcon
    exact qlookup_map_replace q k v (by simpa using hcon)
  · rename_i hcon
    exact qlookup_append_single q k v (by simpa using hcon)

/-- Folding map assignments over a batch preserves key distinctness; every
sync emission path enqueues through such a fold. -/
lemma foldl_qinsert_nodup {α : Type} (f : α → String) (g : α → QueueItem)
    (batch : List α) : ∀ q : Queue, (qkeys q).Nodup →
    (qkeys (batch.foldl (fun acc x => qinsert acc (f x) (g x)) q)).Nodup := by
  induction batch with
  | nil =>
    intro q h
    exact h
  | cons a t ih =>
    intro q h
    rw [List.foldl_cons]
    exact ih _ (qkeys_qinsert_nodup _ _ _ h)

/-- The POST /queue handler preserves key distinctness on every path. -/
lemma handleQueuePost_nodup (tok1 tok2 nowStr : String) (q : Queue)
    (body : Option QueueItem) (n1 n2 : Int) (h : (qkeys q).Nodup) :
    (qkeys (handleQueuePost tok1 tok2 q body n1 n2 nowStr).2).Nodup := by
  unfold handleQueuePost
  split
  · exact h
  · split
    · exact h
    · split
      · exact h
      · exact qkeys_qinsert_nodup _ _ _ h

/-- Popping preserves key distinctness. -/
lemma popOldest_nodup (q : Queue) (h : (qkeys q).Nodup) :
    (qkeys (popOldest q).2).Nodup := by
  rw [popOldest_snd]
  exact h.sublist ((List.filter_sublist q).map Prod.fst)

/-- C10: with distinct keys — one item per identifier — assigning an item
whose identifier is already present replaces the stored item without growing
the queue, and the invariant is preserved by direct POST /queue submission,
by the GitHub, calendar and Readwise emission paths, and by `popOldest`. -/
theorem queue_one_item_per_identifier (q : Queue) (hnd : (qkeys q).Nodup)
    (k : String) (v : QueueItem) (tok nowStr : String) (body : Option QueueItem)
    (n1 n2 : Int)
    (render : GitHubIssue → String) (gbatch : List (GitHubIssue × String × String))
    (crender : CalendarEvent → String) (cbatch : List (CalendarEvent × String × String))
    (rrender : HighlightedDocument → String)
    (rbatch : List (HighlightedDocument × String × String)) :
    (qkeys (qinsert q k v)).Nodup ∧
    qlookup (qinsert q k v) k = some v ∧
    (k ∈ qkeys q → (qinsert q k v).length = q.length) ∧
    (qkeys (handleQueuePost tok tok q body n1 n2 nowStr).2).Nodup ∧
    (qkeys (queueGitHubChanges render q gbatch)).Nodup ∧
    (qkeys (queueCalendarChanges crender q cbatch)).Nodup ∧
    (qkeys (queueReadwiseChanges rrender q rbatch)).Nodup ∧
    (qkeys (popOldest q).2).Nodup := by
  refine ⟨qkeys_qinsert_nodup q k v hnd, qlookup_qinsert q k v,
    fun hmem => qinsert_length_mem q k v hmem,
    handleQueuePost_nodup tok tok nowStr q body n1 n2 hnd, ?_, ?_, ?_,
    popOldest_nodup q hnd⟩
  · exact foldl_qinsert_nodup (fun x => x.2.1)
      (fun x => githubQueueItem render x.2.1 x.2.2 x.1) gbatch q hnd
  · exact foldl_qinsert_nodup (fun x => x.2.1)
      (fun x => calendarQueueItem crender x.2.1 x.2.2 x.1) cbatch q hnd
  · exact foldl_qinsert_nodup (fun x => x.2.1)
      (fun x => readwiseQueueItem rrender x.2.1 x.2.2 x.1) rbatch q hnd

/-- C10 witness: the invariant instantiated on the concrete queue [3, 1, 2]
with an assignment over the existing key "2" and one-element sync batches. -/
theorem queue_one_item_per_identifier_witness :
    (qkeys (qinsert wq "2" itemX)).Nodup ∧
    qlookup (qinsert wq "2" itemX) "2" = some itemX ∧
    ("2" ∈ qkeys wq → (qinsert wq "2" itemX).length = wq.length) ∧
    (qkeys (handleQueuePost "tok" "tok" wq (some wreq) 100 200 "now").2).Nodup ∧
    (qkeys (queueGitHubChanges (fun _ => "gh") wq [(ghClosed, "gh-7", "now")])).Nodup ∧
    (qkeys (queueCalendarChanges (fun _ => "cal") wq [(calCancelled, "cal-8", "now")])).Nodup ∧
    (qkeys (queueReadwiseChanges (fun _ => "rw") wq
      [(⟨rwDoc2, [rwHiA], true⟩, "rw-9", "now")])).Nodup ∧
    (qkeys (popOldest wq).2).Nodup :=
  queue_one_item_per_identifier wq (by decide) "2" itemX "tok" "now" (some wreq) 100 200
    (fun _ => "gh") [(ghClosed, "gh-7", "now")]
    (fun _ => "cal") [(calCancelled, "cal-8", "now")]
    (fun _ => "rw") [(⟨rwDoc2, [rwHiA], true⟩, "rw-9", "now")]

end ThymerInbox
